import Mathlib

/-!
Shallow embedding of `integrations/clickup/clickup/client.py` (the ClickUp
API client of the Ocean integration framework).

Modelling conventions:
* JSON entities are records carrying the fields the client reads, plus a
  `name` payload field standing for the opaque rest of the object, so that
  object equality is not just id equality.
* The remote API is a `Fixture`: one response per endpoint.  A response is
  `Except HttpErr payload`; `Except.error` stands for a non-2xx HTTP status,
  on which `response.raise_for_status()` raises an `httpx.HTTPStatusError`
  carrying status and body (modelled by `PyErr.http`).
* Every operation additionally returns the list of HTTP requests it issued,
  in order (the observable request log), so that call-count properties can
  be stated.  Fixture responses do not depend on the query `params`
  (upstream pagination of teams/spaces/lists is not exercised by the
  client); the `params` actually sent are recorded in the log.
* Query params are an association list `String → Nat`, mirroring the Python
  dicts `{}` and `{"page": n}` that the client uses.
* The async generators are embedded as functions returning the full list of
  yielded batches (the generator is always driven to completion by its
  consumer) together with the final state of the mutated `params` dict.
  The `while True` pagination loop gets a fuel parameter; `none` means the
  fuel ran out before the loop terminated.
-/

/-- A non-success HTTP response: status code and body, exactly the data a
propagated `httpx.HTTPStatusError` carries. -/
structure HttpErr where
  status : Nat
  body : String
deriving DecidableEq, Repr

/-- Exceptions that can escape a client coroutine: an HTTP error raised by
`raise_for_status`, or `StopAsyncIteration` raised by `__anext__()` on an
exhausted async generator. -/
inductive PyErr where
  | http (e : HttpErr)
  | stopAsyncIteration
deriving DecidableEq, Repr

/-- A ClickUp team object: the client reads `team["id"]`; `name` stands for
the rest of the JSON object. -/
structure Team where
  id : String
  name : String
deriving DecidableEq, Repr

/-- A ClickUp space object: the client reads `space["id"]`. -/
structure Space where
  id : String
  name : String
deriving DecidableEq, Repr

/-- A ClickUp list ("project" in this client's vocabulary): the client reads
`project["id"]`. -/
structure Proj where
  id : String
  name : String
deriving DecidableEq, Repr

/-- A project as handed to callers: the upstream object plus the `__team`
field the client splices in (`{**project, "__team": team}`).  In
`get_single_project` the field is first set to the empty object `{}` and
only then possibly overwritten with a team, so it is modelled as
`Option Team` with `none` standing for `{}`. -/
structure ProjWithTeam where
  proj : Proj
  team : Option Team
deriving DecidableEq, Repr

/-- A ClickUp task ("issue"). -/
structure Issue where
  id : String
  name : String
deriving DecidableEq, Repr

/-- The JSON envelope of `GET /list/{id}/task`: the `tasks` array and the
optional `last_page` flag, read by the client as
`issues.get("last_page", False)`. -/
structure TasksPage where
  tasks : List Issue
  lastPage : Option Bool
deriving DecidableEq, Repr

/-- A ClickUp webhook object: the client reads `webhook["endpoint"]` and
`webhook["id"]`. -/
structure Webhook where
  id : String
  endpoint : String
  events : List String
deriving DecidableEq, Repr

/-- Query parameters, mirroring the Python dicts `{}` / `{"page": n}`. -/
def Params := List (String × Nat)
deriving DecidableEq, Repr

/-- The page a task request asks for: the `page` entry of the params, absent
meaning page 0 on the server side. -/
def Params.page (p : Params) : Nat := (List.lookup "page" p).getD 0

/-- The mutation `params["page"] += 1`.  The source only ever performs it on
a dict that contains the `page` key (the default argument is
`{"page": 0}`); on a dict without the key Python would raise `KeyError`,
a path no caller reaches and not modelled. -/
def Params.bumpPage (p : Params) : Params :=
  p.map (fun kv => if kv.1 = "page" then (kv.1, kv.2 + 1) else kv)

/-- One outbound HTTP request, as recorded in the request log.  Where the
source forwards its `params` dict, the entry records the params sent. -/
inductive Request where
  | getTeams (params : Params)
  | getSpaces (teamId : String) (params : Params)
  | getLists (spaceId : String) (params : Params)
  | getList (projectId : String)
  | getTasks (projectId : String) (params : Params)
  | getTask (taskId : String)
  | getWebhooks (teamId : String)
  | postWebhook (teamId : String) (endpoint : String) (events : List String)
deriving DecidableEq, Repr

/-- Is this request a `GET /team/{id}/space` or `GET /space/{id}/list` call?
These are the endpoints a full team-resolution scan hits. -/
def Request.isScan : Request → Bool
  | .getSpaces _ _ => true
  | .getLists _ _ => true
  | _ => false

/-- Is this request a webhook-creation POST? -/
def Request.isPost : Request → Bool
  | .postWebhook _ _ _ => true
  | _ => false

/-- The remote API, one response per endpoint.  `Except.error` is a non-2xx
response (status/body); `Except.ok` is a 2xx response with its parsed JSON
payload. -/
structure Fixture where
  teamsResp : Except HttpErr (List Team)
  spacesResp : String → Except HttpErr (List Space)
  listsResp : String → Except HttpErr (List Proj)
  projectResp : String → Except HttpErr Proj
  tasksResp : String → Nat → Except HttpErr TasksPage
  issueResp : String → Except HttpErr Issue
  webhooksResp : String → Except HttpErr (List Webhook)
  createWebhookResp : String → Except HttpErr Webhook

/-- The fixed event list `WEBHOOK_EVENTS` at the top of the module. -/
def WEBHOOK_EVENTS : List String :=
  ["listCreated", "listUpdated", "listDeleted",
   "taskCreated", "taskUpdated", "taskDeleted"]

/-- Lift a fixture response to the exception raised by
`raise_for_status()`. -/
def liftResp {α : Type} : Except HttpErr α → Except PyErr α
  | .ok a => .ok a
  | .error e => .error (.http e)

/-- `ClickupClient.get_teams`: `GET /team`, unwrap the `teams` array. -/
def get_teams (fx : Fixture) (params : Params) :
    List Request × Except PyErr (List Team) :=
  ([.getTeams params], liftResp fx.teamsResp)

/-- `ClickupClient._get_spaces`: `GET /team/{team_id}/space`, unwrap the
`spaces` array. -/
def _get_spaces (fx : Fixture) (teamId : String) (params : Params) :
    List Request × Except PyErr (List Space) :=
  ([.getSpaces teamId params], liftResp (fx.spacesResp teamId))

/-- `ClickupClient.get_single_issue`: `GET /task/{issue_id}`. -/
def get_single_issue (fx : Fixture) (issueId : String) :
    List Request × Except PyErr Issue :=
  ([.getTask issueId], liftResp (fx.issueResp issueId))

/-- The inner loop of `get_projects`: for each space of the current team,
`GET /space/{id}/list` and extend the accumulator with that space's lists,
each annotated with the current team (`{**project, "__team": team}`). -/
def projectsSpacesLoop (fx : Fixture) (params : Params) (team : Team) :
    List Space → List Request × Except PyErr (List ProjWithTeam)
  | [] => ([], .ok [])
  | s :: rest =>
    match fx.listsResp s.id with
    | .error e => ([.getLists s.id params], .error (.http e))
    | .ok ls =>
      let (log, r) := projectsSpacesLoop fx params team rest
      (.getLists s.id params :: log,
       r.map (fun acc => ls.map (fun p => ⟨p, some team⟩) ++ acc))

/-- The outer loop of `get_projects`: for each team, fetch its spaces and run
the inner loop. -/
def projectsTeamsLoop (fx : Fixture) (params : Params) :
    List Team → List Request × Except PyErr (List ProjWithTeam)
  | [] => ([], .ok [])
  | t :: rest =>
    match fx.spacesResp t.id with
    | .error e => ([.getSpaces t.id params], .error (.http e))
    | .ok spaces =>
      match projectsSpacesLoop fx params t spaces with
      | (log1, .error e) => (.getSpaces t.id params :: log1, .error e)
      | (log1, .ok ps) =>
        let (log2, r) := projectsTeamsLoop fx params rest
        (.getSpaces t.id params :: (log1 ++ log2), r.map (fun acc => ps ++ acc))

/-- `ClickupClient.get_projects`: get all teams, then for each team its
spaces, then for each space its lists, annotating every list with the
owning team object. -/
def get_projects (fx : Fixture) (params : Params) :
    List Request × Except PyErr (List ProjWithTeam) :=
  match get_teams fx params with
  | (log, .error e) => (log, .error e)
  | (log, .ok teams) =>
    let (log2, r) := projectsTeamsLoop fx params teams
    (log ++ log2, r)

/-- The inner loop of the `_find_team_for_project` generator body: scan the
current team's spaces; at the first space whose lists contain the target
project id, the generator yields `[team]` and returns. -/
def findTeamSpacesLoop (fx : Fixture) (projectId : String) (team : Team) :
    List Space → List Request × Except PyErr (Option Team)
  | [] => ([], .ok none)
  | s :: rest =>
    match fx.listsResp s.id with
    | .error e => ([.getLists s.id []], .error (.http e))
    | .ok ls =>
      if ls.any (fun p => p.id = projectId) then
        ([.getLists s.id []], .ok (some team))
      else
        let (log, r) := findTeamSpacesLoop fx projectId team rest
        (.getLists s.id [] :: log, r)

/-- The outer loop of the `_find_team_for_project` generator body: scan
teams in listing order, short-circuiting at the first team whose spaces
contain the target project id.  All requests in this scan are issued
without query params (the source calls `get_teams()` and
`_get_spaces(team["id"])` with their `{}` defaults). -/
def findTeamTeamsLoop (fx : Fixture) (projectId : String) :
    List Team → List Request × Except PyErr (Option Team)
  | [] => ([], .ok none)
  | t :: rest =>
    match fx.spacesResp t.id with
    | .error e => ([.getSpaces t.id []], .error (.http e))
    | .ok spaces =>
      match findTeamSpacesLoop fx projectId t spaces with
      | (log1, .error e) => (.getSpaces t.id [] :: log1, .error e)
      | (log1, .ok (some tm)) => (.getSpaces t.id [] :: log1, .ok (some tm))
      | (log1, .ok none) =>
        let (log2, r) := findTeamTeamsLoop fx projectId rest
        (.getSpaces t.id [] :: (log1 ++ log2), r)

/-- One full team-resolution scan: the body of the
`_find_team_for_project` async generator, run to its single yield (or to
exhaustion).  `ok (some t)` means the generator yields `[t]`; `ok none`
means it finishes without yielding. -/
def findTeamScan (fx : Fixture) (projectId : String) :
    List Request × Except PyErr (Option Team) :=
  match fx.teamsResp with
  | .error e => ([.getTeams []], .error (.http e))
  | .ok teams =>
    let (log, r) := findTeamTeamsLoop fx projectId teams
    (.getTeams [] :: log, r)

/-- The memoization cache of `_find_team_for_project`, keyed by project id.
Modelled from the spec: the `cache_iterator_result` decorator lives in
`port_ocean/utils/cache.py`, which is not part of the sources here; per the
spec, "The search result (a single Team, or nothing) is cached keyed by
project ID so repeated lookups for the same project cost one cache hit
instead of a full scan." -/
def Cache := List (String × Option Team)
deriving DecidableEq, Repr

/-- Modelled from the spec: `_find_team_for_project` with its
`cache_iterator_result` memoization (see `Cache`).  A cached project id is
answered without any HTTP request; otherwise one full scan runs and its
result (a team, or nothing) is stored under the project id.  A scan aborted
by an HTTP error caches nothing. -/
def _find_team_for_project (fx : Fixture) (cache : Cache) (projectId : String) :
    List Request × Cache × Except PyErr (Option Team) :=
  match List.lookup projectId cache with
  | some r => ([], cache, .ok r)
  | none =>
    match findTeamScan fx projectId with
    | (log, .error e) => (log, cache, .error e)
    | (log, .ok r) => (log, (projectId, r) :: cache, .ok r)

/-- `ClickupClient.get_single_project`: `GET /list/{project_id}` with
`raise_for_status`, set `project["__team"] = {}`, then
`await self._find_team_for_project(project_id).__anext__()`.  When the
generator yields `[team]`, `__anext__` returns it, the truthy check
`if team:` passes and `__team` becomes `team[0]`.  When the generator
finishes without yielding, `__anext__` raises `StopAsyncIteration`, which
propagates out of the coroutine. -/
def get_single_project (fx : Fixture) (cache : Cache) (projectId : String) :
    List Request × Cache × Except PyErr ProjWithTeam :=
  match fx.projectResp projectId with
  | .error e => ([.getList projectId], cache, .error (.http e))
  | .ok proj =>
    match _find_team_for_project fx cache projectId with
    | (log, cache2, .error e) => (.getList projectId :: log, cache2, .error e)
    | (log, cache2, .ok none) =>
      (.getList projectId :: log, cache2, .error .stopAsyncIteration)
    | (log, cache2, .ok (some tm)) =>
      (.getList projectId :: log, cache2, .ok ⟨proj, some tm⟩)

/-- The naive single-project strategy, from the spec's words: "re-list all
projects and linear-scan for a matching ID; returns an empty object if not
found".  Stated for comparison with the implemented optimized strategy. -/
def get_project_naive (fx : Fixture) (projectId : String) :
    Except PyErr (Option ProjWithTeam) :=
  ((get_projects fx []).2).map (fun ps => ps.find? (fun pw => pw.proj.id = projectId))

/-- `ClickupClient._create_team_webhook_events`: list the team's webhooks;
if one already targets `{app_host}/integration/webhook` do nothing, else
POST a new webhook with that endpoint and the fixed `WEBHOOK_EVENTS`. -/
def _create_team_webhook_events (fx : Fixture) (appHost : String) (teamId : String) :
    List Request × Except PyErr Unit :=
  let target := appHost ++ "/integration/webhook"
  match fx.webhooksResp teamId with
  | .error e => ([.getWebhooks teamId], .error (.http e))
  | .ok whs =>
    match whs.find? (fun wh => wh.endpoint = target) with
    | some _ => ([.getWebhooks teamId], .ok ())
    | none =>
      match fx.createWebhookResp teamId with
      | .error e =>
        ([.getWebhooks teamId, .postWebhook teamId target WEBHOOK_EVENTS],
         .error (.http e))
      | .ok _ =>
        ([.getWebhooks teamId, .postWebhook teamId target WEBHOOK_EVENTS],
         .ok ())

/-- `ClickupClient.create_webhook_events`: run
`_create_team_webhook_events` for every team, in listing order, stopping at
the first error. -/
def webhookTeamsLoop (fx : Fixture) (appHost : String) :
    List Team → List Request × Except PyErr Unit
  | [] => ([], .ok ())
  | t :: rest =>
    match _create_team_webhook_events fx appHost t.id with
    | (log, .error e) => (log, .error e)
    | (log, .ok ()) =>
      let (log2, r) := webhookTeamsLoop fx appHost rest
      (log ++ log2, r)

/-- `ClickupClient.create_webhook_events` (outer entry point). -/
def create_webhook_events (fx : Fixture) (appHost : String) :
    List Request × Except PyErr Unit :=
  match get_teams fx [] with
  | (log, .error e) => (log, .error e)
  | (log, .ok teams) =>
    let (log2, r) := webhookTeamsLoop fx appHost teams
    (log ++ log2, r)

/-- The `while True` pagination loop of `get_paginated_issues` for one
project: `GET /list/{id}/task` with the shared `params`, yield the `tasks`
array, break if `last_page` (absent means `False`), else
`params["page"] += 1` and repeat.  The fuel bounds the number of
iterations; `none` means the loop did not terminate within the fuel.
Returns the requests issued, the final state of the mutated `params`, and
the yielded batches. -/
def paginateProject (fx : Fixture) (projectId : String) :
    Nat → Params → Option (List Request × Params × Except PyErr (List (List Issue)))
  | 0, _ => none
  | fuel + 1, params =>
    match fx.tasksResp projectId params.page with
    | .error e => some ([.getTasks projectId params], params, .error (.http e))
    | .ok page =>
      if page.lastPage.getD false then
        some ([.getTasks projectId params], params, .ok [page.tasks])
      else
        match paginateProject fx projectId fuel params.bumpPage with
        | none => none
        | some (log, pf, r) =>
          some (.getTasks projectId params :: log, pf,
                r.map (fun bs => page.tasks :: bs))

/-- The outer loop of `get_paginated_issues`: paginate each project in
turn, threading the one shared `params` dict through. -/
def issuesProjectsLoop (fx : Fixture) (fuel : Nat) :
    List ProjWithTeam → Params →
    Option (List Request × Params × Except PyErr (List (List Issue)))
  | [], params => some ([], params, .ok [])
  | p :: rest, params =>
    match paginateProject fx p.proj.id fuel params with
    | none => none
    | some (log, params2, .error e) => some (log, params2, .error e)
    | some (log, params2, .ok batches) =>
      match issuesProjectsLoop fx fuel rest params2 with
      | none => none
      | some (log2, pf, r) =>
        some (log ++ log2, pf, r.map (fun bs => batches ++ bs))

/-- `ClickupClient.get_paginated_issues`, driven to completion: fetch the
projects (forwarding the shared `params` dict to those requests too), then
paginate each project's tasks with the same mutable `params`.  The default
argument `params={"page": 0}` is a single dict created once at function
definition and shared by every no-argument call; a caller models a second
no-argument invocation by passing the final `params` of the first one back
in. -/
def get_paginated_issues (fx : Fixture) (fuel : Nat) (params : Params) :
    Option (List Request × Params × Except PyErr (List (List Issue))) :=
  match get_projects fx params with
  | (log, .error e) => some (log, params, .error e)
  | (log, .ok ps) =>
    match issuesProjectsLoop fx fuel ps params with
    | none => none
    | some (log2, pf, r) => some (log ++ log2, pf, r)

/-! ## A concrete error-free fixture used by the witnesses -/

/-- Two demo teams. -/
def demoTeams : List Team := [⟨"t1", "Alpha"⟩, ⟨"t2", "Beta"⟩]

/-- Demo spaces: team `t1` has two spaces, team `t2` one. -/
def demoSpaces : String → List Space := fun tid =>
  if tid = "t1" then [⟨"s1", "S1"⟩, ⟨"s2", "S2"⟩]
  else if tid = "t2" then [⟨"s3", "S3"⟩]
  else []

/-- Demo lists: spaces `s1`/`s2`/`s3` hold two/one/one projects. -/
def demoLists : String → List Proj := fun sid =>
  if sid = "s1" then [⟨"p1", "P1"⟩, ⟨"p2", "P2"⟩]
  else if sid = "s2" then [⟨"p3", "P3"⟩]
  else if sid = "s3" then [⟨"p4", "P4"⟩]
  else []

/-- An error-free fixture over the demo teams/spaces/lists. -/
def fxDemo : Fixture where
  teamsResp := .ok demoTeams
  spacesResp := fun tid => .ok (demoSpaces tid)
  listsResp := fun sid => .ok (demoLists sid)
  projectResp := fun pid =>
    if pid = "p4" then .ok ⟨"p4", "P4"⟩
    else if pid = "p1" then .ok ⟨"p1", "P1"⟩
    else .error ⟨404, "not found"⟩
  tasksResp := fun _ _ => .ok ⟨[], some true⟩
  issueResp := fun _ => .error ⟨404, "not found"⟩
  webhooksResp := fun _ => .ok []
  createWebhookResp := fun _ => .ok ⟨"wh1", "", WEBHOOK_EVENTS⟩

/-- The annotated block a single team contributes to `get_projects`. -/
def teamBlock (spacesOf : String → List Space) (listsOf : String → List Proj)
    (t : Team) : List ProjWithTeam :=
  (spacesOf t.id).flatMap fun s => (listsOf s.id).map fun p => ⟨p, some t⟩

/-- A fixture whose project `p9` is fetchable by id but belongs to no
team's spaces' lists: one team, one space, zero lists. -/
def fxC3 : Fixture where
  teamsResp := .ok [⟨"t1", "Alpha"⟩]
  spacesResp := fun _ => .ok [⟨"s1", "S1"⟩]
  listsResp := fun _ => .ok []
  projectResp := fun pid =>
    if pid = "p9" then .ok ⟨"p9", "P9"⟩ else .error ⟨404, "not found"⟩
  tasksResp := fun _ _ => .ok ⟨[], some true⟩
  issueResp := fun _ => .error ⟨404, "not found"⟩
  webhooksResp := fun _ => .ok []
  createWebhookResp := fun _ => .ok ⟨"w1", "", []⟩

/-- A fixture whose every team already has a webhook at the target endpoint
(with a different event set, which the client does not inspect). -/
def fxHook : Fixture :=
  { fxDemo with webhooksResp :=
      fun _ => Except.ok [⟨"w1", "https://h/integration/webhook", ["taskCreated"]⟩] }

/-- An all-errors fixture. -/
def fxErr : Fixture where
  teamsResp := .error ⟨500, "boom"⟩
  spacesResp := fun _ => .error ⟨500, "boom"⟩
  listsResp := fun _ => .error ⟨500, "boom"⟩
  projectResp := fun _ => .error ⟨500, "boom"⟩
  tasksResp := fun _ _ => .error ⟨500, "boom"⟩
  issueResp := fun _ => .error ⟨500, "boom"⟩
  webhooksResp := fun _ => .error ⟨500, "boom"⟩
  createWebhookResp := fun _ => .error ⟨500, "boom"⟩

/-- Like `fxErr`, but listing webhooks succeeds (empty) so that the
creation POST is reached and its failure propagates. -/
def fxErrPost : Fixture := { fxErr with webhooksResp := fun _ => .ok [] }

/-- Like `fxErr`, but teams and spaces succeed so that the list fetch
inside `get_projects` is reached and its failure propagates. -/
def fxErrLists : Fixture :=
  { fxErr with
    teamsResp := .ok [⟨"t1", "Alpha"⟩],
    spacesResp := fun _ => .ok [⟨"s1", "S1"⟩] }

/-- The query params a request carries, when the source forwards its
`params` dict on that request. -/
def Request.qparams : Request → Option Params
  | .getTeams p => some p
  | .getSpaces _ p => some p
  | .getLists _ p => some p
  | .getTasks _ p => some p
  | _ => none

/-- Is this request a task-page fetch? -/
def Request.isTasks : Request → Bool
  | .getTasks _ _ => true
  | _ => false

/-- A fixture for pagination runs: one team, one space, two projects.
Project `pA` has two pages (`last_page` false then true); project `pB`
answers any of the pages 0..2 with a single final page, so the run shows
which page number the client actually asks for. -/
def fxC2 : Fixture where
  teamsResp := .ok [⟨"t1", "Alpha"⟩]
  spacesResp := fun _ => .ok [⟨"s1", "S1"⟩]
  listsResp := fun _ => .ok [⟨"pA", "PA"⟩, ⟨"pB", "PB"⟩]
  projectResp := fun _ => .error ⟨404, "not found"⟩
  tasksResp := fun pid page =>
    if pid = "pA" then
      if page = 0 then .ok ⟨[⟨"a0", "A0"⟩], some false⟩
      else if page = 1 then .ok ⟨[⟨"a1", "A1"⟩], some true⟩
      else .error ⟨400, "bad page"⟩
    else if pid = "pB" then
      if page = 0 then .ok ⟨[⟨"b0", "B0"⟩], some true⟩
      else if page = 1 then .ok ⟨[⟨"b1", "B1"⟩], some true⟩
      else if page = 2 then .ok ⟨[⟨"b2", "B2"⟩], some true⟩
      else .error ⟨400, "bad page"⟩
    else .error ⟨404, "not found"⟩
  issueResp := fun _ => .error ⟨404, "not found"⟩
  webhooksResp := fun _ => .ok []
  createWebhookResp := fun _ => .ok ⟨"w1", "", []⟩

/-! ## Helper lemmas about `get_projects` on an error-free upstream -/

/-- On an error-free upstream, the inner loop of `get_projects` requests each
space's lists in order and returns them annotated with the current team. -/
theorem projectsSpacesLoop_healthy (fx : Fixture) (params : Params) (team : Team)
    (listsOf : String → List Proj)
    (hl : ∀ sid, fx.listsResp sid = .ok (listsOf sid)) :
    ∀ ss : List Space,
      projectsSpacesLoop fx params team ss =
        (ss.map (fun s => .getLists s.id params),
         .ok (ss.flatMap fun s => (listsOf s.id).map fun p => ⟨p, some team⟩))
  | [] => by simp [projectsSpacesLoop]
  | s :: rest => by
    simp [projectsSpacesLoop, hl s.id,
      projectsSpacesLoop_healthy fx params team listsOf hl rest, Except.map]

/-- On an error-free upstream, the outer loop of `get_projects` walks the
teams in order, producing the nested-iteration-order concatenation. -/
theorem projectsTeamsLoop_healthy (fx : Fixture) (params : Params)
    (spacesOf : String → List Space) (listsOf : String → List Proj)
    (hs : ∀ tid, fx.spacesResp tid = .ok (spacesOf tid))
    (hl : ∀ sid, fx.listsResp sid = .ok (listsOf sid)) :
    ∀ ts : List Team,
      projectsTeamsLoop fx params ts =
        (ts.flatMap (fun t => .getSpaces t.id params ::
            (spacesOf t.id).map (fun s => .getLists s.id params)),
         .ok (ts.flatMap fun t => (spacesOf t.id).flatMap fun s =>
            (listsOf s.id).map fun p => ⟨p, some t⟩))
  | [] => by simp [projectsTeamsLoop]
  | t :: rest => by
    simp [projectsTeamsLoop, hs t.id,
      projectsSpacesLoop_healthy fx params t listsOf hl (spacesOf t.id),
      projectsTeamsLoop_healthy fx params spacesOf listsOf hs hl rest, Except.map]

/-- On an error-free upstream, `get_projects` returns exactly the
nested-iteration-order list of annotated projects, and its request log. -/
theorem get_projects_healthy (fx : Fixture) (params : Params)
    (teams : List Team) (spacesOf : String → List Space) (listsOf : String → List Proj)
    (ht : fx.teamsResp = .ok teams)
    (hs : ∀ tid, fx.spacesResp tid = .ok (spacesOf tid))
    (hl : ∀ sid, fx.listsResp sid = .ok (listsOf sid)) :
    get_projects fx params =
      (.getTeams params :: teams.flatMap (fun t => .getSpaces t.id params ::
          (spacesOf t.id).map (fun s => .getLists s.id params)),
       .ok (teams.flatMap fun t => (spacesOf t.id).flatMap fun s =>
          (listsOf s.id).map fun p => ⟨p, some t⟩)) := by
  simp [get_projects, get_teams, ht, liftResp,
    projectsTeamsLoop_healthy fx params spacesOf listsOf hs hl teams]

/-- C1: on every error-free upstream fixture, `get_projects` returns exactly
one entry per upstream list, in nested iteration order (teams outer, spaces
inner), each annotated with its owning team; the total count equals the sum
over teams of the sum over spaces of that space's list count. -/
theorem get_projects_count_and_order (fx : Fixture) (params : Params)
    (teams : List Team) (spacesOf : String → List Space) (listsOf : String → List Proj)
    (ht : fx.teamsResp = .ok teams)
    (hs : ∀ tid, fx.spacesResp tid = .ok (spacesOf tid))
    (hl : ∀ sid, fx.listsResp sid = .ok (listsOf sid)) :
    (get_projects fx params).2 =
      .ok (teams.flatMap fun t => (spacesOf t.id).flatMap fun s =>
        (listsOf s.id).map fun p => ⟨p, some t⟩) ∧
    ∀ ps, (get_projects fx params).2 = .ok ps →
      ps.length =
        (teams.map fun t =>
          ((spacesOf t.id).map fun s => (listsOf s.id).length).sum).sum := by
  have h := get_projects_healthy fx params teams spacesOf listsOf ht hs hl
  constructor
  · rw [h]
  · intro ps hps
    rw [h] at hps
    cases hps
    simp [List.length_flatMap, List.length_map, Function.comp_def]

/-- Witness for C1 at the demo fixture: four upstream lists, four entries,
nested iteration order, each annotated with its owning team. -/
theorem get_projects_count_and_order_witness :
    (get_projects fxDemo []).2 =
      .ok [⟨⟨"p1", "P1"⟩, some ⟨"t1", "Alpha"⟩⟩, ⟨⟨"p2", "P2"⟩, some ⟨"t1", "Alpha"⟩⟩,
           ⟨⟨"p3", "P3"⟩, some ⟨"t1", "Alpha"⟩⟩, ⟨⟨"p4", "P4"⟩, some ⟨"t2", "Beta"⟩⟩] ∧
    ([⟨⟨"p1", "P1"⟩, some ⟨"t1", "Alpha"⟩⟩, ⟨⟨"p2", "P2"⟩, some ⟨"t1", "Alpha"⟩⟩,
      ⟨⟨"p3", "P3"⟩, some ⟨"t1", "Alpha"⟩⟩, ⟨⟨"p4", "P4"⟩, some ⟨"t2", "Beta"⟩⟩] :
        List ProjWithTeam).length = 4 := by
  have h := get_projects_count_and_order fxDemo [] demoTeams demoSpaces demoLists
    rfl (fun _ => rfl) (fun _ => rfl)
  have h1 : (get_projects fxDemo []).2 =
      .ok [⟨⟨"p1", "P1"⟩, some ⟨"t1", "Alpha"⟩⟩, ⟨⟨"p2", "P2"⟩, some ⟨"t1", "Alpha"⟩⟩,
           ⟨⟨"p3", "P3"⟩, some ⟨"t1", "Alpha"⟩⟩, ⟨⟨"p4", "P4"⟩, some ⟨"t2", "Beta"⟩⟩] :=
    h.1.trans (congrArg Except.ok (by decide))
  exact ⟨h1, (h.2 _ h1).trans (by decide)⟩

/-! ## Helper lemmas about the team-resolution scan -/

/-- On an error-free upstream, the inner scan of `_find_team_for_project`
reports the current team exactly when one of its spaces' lists contains the
target project id. -/
theorem findTeamSpacesLoop_healthy (fx : Fixture) (pid : String) (t : Team)
    (listsOf : String → List Proj)
    (hl : ∀ sid, fx.listsResp sid = .ok (listsOf sid)) :
    ∀ ss : List Space,
      (findTeamSpacesLoop fx pid t ss).2 =
        .ok (if ss.any (fun s => (listsOf s.id).any (fun p => p.id = pid))
             then some t else none)
  | [] => by simp [findTeamSpacesLoop]
  | s :: rest => by
    rcases h : (listsOf s.id).any (fun p => p.id = pid) with _ | _
    · simp [findTeamSpacesLoop, hl s.id, h,
        findTeamSpacesLoop_healthy fx pid t listsOf hl rest]
    · simp [findTeamSpacesLoop, hl s.id, h]

/-- Linear-scanning one team's annotated block for a project id gives that
team exactly when one of its spaces' lists contains the id. -/
theorem teamBlock_find (spacesOf : String → List Space)
    (listsOf : String → List Proj) (t : Team) (pid : String) :
    ((teamBlock spacesOf listsOf t).find? (fun pw => pw.proj.id = pid)).bind
        (fun pw => pw.team) =
      (if (spacesOf t.id).any (fun s => (listsOf s.id).any (fun p => p.id = pid))
       then some t else none) := by
  have hmap : teamBlock spacesOf listsOf t =
      ((spacesOf t.id).flatMap fun s => listsOf s.id).map
        (fun p => (⟨p, some t⟩ : ProjWithTeam)) := by
    simp [teamBlock, List.map_flatMap]
  rw [hmap, List.find?_map, ← List.any_flatMap]
  rcases h : ((spacesOf t.id).flatMap fun s => listsOf s.id).find?
      ((fun pw : ProjWithTeam => decide (pw.proj.id = pid)) ∘
        (fun p => (⟨p, some t⟩ : ProjWithTeam))) with _ | p
  · rw [List.find?_eq_none] at h
    have hfalse : (((spacesOf t.id).flatMap fun s => listsOf s.id).any
        (fun p => p.id = pid)) = false := by
      rw [List.any_eq_false]
      intro x hx
      simpa using h x hx
    simp [hfalse]
  · have hp := List.find?_some h
    have hmem := List.mem_of_find?_eq_some h
    have htrue : (((spacesOf t.id).flatMap fun s => listsOf s.id).any
        (fun p => p.id = pid)) = true :=
      List.any_eq_true.mpr ⟨p, hmem, by simpa using hp⟩
    simp [htrue]

/-- When no space of the team contains the project id, the team's annotated
block contains no matching entry. -/
theorem teamBlock_find_none (spacesOf : String → List Space)
    (listsOf : String → List Proj) (t : Team) (pid : String)
    (hfalse : ((spacesOf t.id).any (fun s =>
        (listsOf s.id).any (fun p => p.id = pid))) = false) :
    (teamBlock spacesOf listsOf t).find? (fun pw => pw.proj.id = pid) = none := by
  rw [List.find?_eq_none]
  intro pw hpw
  simp only [teamBlock, List.mem_flatMap, List.mem_map] at hpw
  obtain ⟨s, hsmem, p, hpmem, rfl⟩ := hpw
  have h2 : (listsOf s.id).any (fun p => p.id = pid) = false := by
    simpa using List.any_eq_false.mp hfalse s hsmem
  simpa using List.any_eq_false.mp h2 p hpmem

/-- On an error-free upstream, the short-circuiting team scan of
`_find_team_for_project` computes exactly the team annotation of the first
matching entry of the naive full listing. -/
theorem findTeamTeamsLoop_healthy (fx : Fixture) (pid : String)
    (spacesOf : String → List Space) (listsOf : String → List Proj)
    (hs : ∀ tid, fx.spacesResp tid = .ok (spacesOf tid))
    (hl : ∀ sid, fx.listsResp sid = .ok (listsOf sid)) :
    ∀ ts : List Team,
      (findTeamTeamsLoop fx pid ts).2 =
        .ok (((ts.flatMap (teamBlock spacesOf listsOf)).find?
            (fun pw => pw.proj.id = pid)).bind (fun pw => pw.team))
  | [] => by simp [findTeamTeamsLoop]
  | t :: rest => by
    have h2 := findTeamSpacesLoop_healthy fx pid t listsOf hl (spacesOf t.id)
    have ih := findTeamTeamsLoop_healthy fx pid spacesOf listsOf hs hl rest
    rcases hpair : findTeamSpacesLoop fx pid t (spacesOf t.id) with ⟨log1, r1⟩
    rw [hpair] at h2
    simp only at h2
    rcases hpair2 : findTeamTeamsLoop fx pid rest with ⟨log2, r2⟩
    rw [hpair2] at ih
    simp only at ih
    rcases hcond : (spacesOf t.id).any (fun s =>
        (listsOf s.id).any (fun p => p.id = pid)) with _ | _
    · rw [hcond] at h2
      simp only [if_neg Bool.false_ne_true] at h2
      subst h2
      subst ih
      have hnone := teamBlock_find_none spacesOf listsOf t pid hcond
      simp [findTeamTeamsLoop, hs t.id, hpair, hpair2, List.find?_append, hnone]
    · rw [hcond] at h2
      simp only [if_pos rfl] at h2
      subst h2
      have hbind := teamBlock_find spacesOf listsOf t pid
      rw [hcond, if_pos rfl] at hbind
      rcases hfind : (teamBlock spacesOf listsOf t).find?
          (fun pw => pw.proj.id = pid) with _ | pw
      · rw [hfind] at hbind
        simp at hbind
      · rw [hfind] at hbind
        simp only [Option.some_bind] at hbind
        simp [findTeamTeamsLoop, hs t.id, hpair, List.find?_append, hfind, hbind]

/-- On an error-free upstream, one full `_find_team_for_project` scan
returns the team annotation of the first matching entry of the full
listing. -/
theorem findTeamScan_healthy (fx : Fixture) (pid : String)
    (teams : List Team) (spacesOf : String → List Space) (listsOf : String → List Proj)
    (ht : fx.teamsResp = .ok teams)
    (hs : ∀ tid, fx.spacesResp tid = .ok (spacesOf tid))
    (hl : ∀ sid, fx.listsResp sid = .ok (listsOf sid)) :
    (findTeamScan fx pid).2 =
      .ok (((teams.flatMap (teamBlock spacesOf listsOf)).find?
          (fun pw => pw.proj.id = pid)).bind (fun pw => pw.team)) := by
  have h := findTeamTeamsLoop_healthy fx pid spacesOf listsOf hs hl teams
  rcases hpair : findTeamTeamsLoop fx pid teams with ⟨log, r⟩
  rw [hpair] at h
  simp only at h
  subst h
  simp [findTeamScan, ht, hpair]

/-- Every entry of the full annotated listing carries a team object. -/
theorem flatMap_teamBlock_team (spacesOf : String → List Space)
    (listsOf : String → List Proj) (ts : List Team) (pw : ProjWithTeam)
    (h : pw ∈ ts.flatMap (teamBlock spacesOf listsOf)) : ∃ tm, pw.team = some tm := by
  simp only [List.mem_flatMap, teamBlock, List.mem_map] at h
  obtain ⟨t, -, hmem⟩ := h
  obtain ⟨s, -, p, -, rfl⟩ := hmem
  exact ⟨t, rfl⟩

/-- C3 (code bug, evaluated at the failing input): for a project id that is
fetchable upstream but contained in no team's spaces' lists, the scan of
`_find_team_for_project` finishes without yielding, so the
`.__anext__()` call in `get_single_project` raises `StopAsyncIteration`
instead of returning the project with `__team = {}`. -/
theorem get_single_project_unowned_raises :
    get_single_project fxC3 ([] : Cache) "p9" =
      ([.getList "p9", .getTeams [], .getSpaces "t1" [], .getLists "s1" []],
       ([("p9", (none : Option Team))] : Cache),
       .error .stopAsyncIteration) := by
  rfl

/-- C4 (amended): for a project id whose direct fetch `GET /list/{id}`
returns a non-success status, `get_single_project` propagates the HTTP
error (status and body) and issues no further requests; there is no
empty-object fallback. -/
theorem get_single_project_unknown_id_propagates (fx : Fixture) (cache : Cache)
    (pid : String) (e : HttpErr) (h : fx.projectResp pid = .error e) :
    get_single_project fx cache pid = ([.getList pid], cache, .error (.http e)) := by
  simp [get_single_project, h]

/-- C4 counterexample: at the demo fixture, `get_single_project` on the
unknown id `p7` fails with the propagated 404 error; it does not return an
empty/absent sentinel result as the claim states. -/
theorem get_single_project_unknown_id_errors_cex :
    get_single_project fxDemo ([] : Cache) "p7" =
      ([.getList "p7"], ([] : Cache), .error (.http ⟨404, "not found"⟩)) ∧
    (get_single_project fxDemo ([] : Cache) "p7").2.2 ≠
      .ok ⟨⟨"p7", "P7"⟩, none⟩ := by
  have h1 : get_single_project fxDemo ([] : Cache) "p7" =
      ([.getList "p7"], ([] : Cache), .error (.http ⟨404, "not found"⟩)) := rfl
  refine ⟨h1, fun hpw => ?_⟩
  rw [h1] at hpw
  exact Except.noConfusion hpw

/-- Witness for the amended C4 at a concrete unknown id. -/
theorem get_single_project_unknown_id_propagates_witness :
    get_single_project fxDemo ([] : Cache) "p8" =
      ([.getList "p8"], ([] : Cache), .error (.http ⟨404, "not found"⟩)) :=
  get_single_project_unknown_id_propagates fxDemo [] "p8" ⟨404, "not found"⟩ rfl

/-- C5: on an error-free upstream, for a project id that appears in the
listing, the team attached by the optimized `get_single_project` equals the
team annotation of the entry the naive re-list-and-scan strategy finds for
that id in `get_projects`. -/
theorem get_single_project_agrees_with_naive (fx : Fixture)
    (teams : List Team) (spacesOf : String → List Space) (listsOf : String → List Proj)
    (ht : fx.teamsResp = .ok teams)
    (hs : ∀ tid, fx.spacesResp tid = .ok (spacesOf tid))
    (hl : ∀ sid, fx.listsResp sid = .ok (listsOf sid))
    (pid : String) (proj : Proj) (hp : fx.projectResp pid = .ok proj)
    (cache : Cache) (hc : List.lookup pid cache = none)
    (pw : ProjWithTeam) (hn : get_project_naive fx pid = .ok (some pw)) :
    (get_single_project fx cache pid).2.2 = .ok ⟨proj, pw.team⟩ := by
  have hps := get_projects_healthy fx [] teams spacesOf listsOf ht hs hl
  rw [get_project_naive, hps] at hn
  simp only [Except.map, Except.ok.injEq] at hn
  have hblocks : (teams.flatMap fun t => (spacesOf t.id).flatMap fun s =>
      (listsOf s.id).map fun p => (⟨p, some t⟩ : ProjWithTeam)) =
      teams.flatMap (teamBlock spacesOf listsOf) := rfl
  rw [hblocks] at hn
  have hmem := List.mem_of_find?_eq_some hn
  obtain ⟨tm, htm⟩ := flatMap_teamBlock_team spacesOf listsOf teams pw hmem
  have hscan := findTeamScan_healthy fx pid teams spacesOf listsOf ht hs hl
  rw [hn] at hscan
  simp only [Option.some_bind, htm] at hscan
  rcases hsp : findTeamScan fx pid with ⟨slog, sr⟩
  rw [hsp] at hscan
  simp only at hscan
  subst hscan
  simp [get_single_project, hp, _find_team_for_project, hc, hsp, htm]

/-- Witness for C5 at the demo fixture: project `p4` lives under team `t2`
in the listing, and the optimized lookup attaches exactly that team. -/
theorem get_single_project_agrees_with_naive_witness :
    (get_single_project fxDemo ([] : Cache) "p4").2.2 =
      .ok ⟨⟨"p4", "P4"⟩, some ⟨"t2", "Beta"⟩⟩ :=
  get_single_project_agrees_with_naive fxDemo demoTeams demoSpaces demoLists
    rfl (fun _ => rfl) (fun _ => rfl) "p4" ⟨"p4", "P4"⟩ rfl [] rfl
    ⟨⟨"p4", "P4"⟩, some ⟨"t2", "Beta"⟩⟩ rfl

/-- The cache handed back by `get_single_project` is the one
`_find_team_for_project` produced (when the direct project fetch
succeeded). -/
theorem get_single_project_cache_eq (fx : Fixture) (cache : Cache)
    (pid : String) (proj : Proj) (hp : fx.projectResp pid = .ok proj) :
    (get_single_project fx cache pid).2.1 =
      (_find_team_for_project fx cache pid).2.1 := by
  rcases h : _find_team_for_project fx cache pid with ⟨log, c2, r⟩
  rcases r with e | tm
  · simp [get_single_project, hp, h]
  · rcases tm with _ | tm <;> simp [get_single_project, hp, h]

/-- On an error-free upstream, `_find_team_for_project` always leaves the
looked-up project id cached (cache hit, or scan completed and stored). -/
theorem find_team_cache_lookup (fx : Fixture) (cache : Cache) (pid : String)
    (teams : List Team) (spacesOf : String → List Space) (listsOf : String → List Proj)
    (ht : fx.teamsResp = .ok teams)
    (hs : ∀ tid, fx.spacesResp tid = .ok (spacesOf tid))
    (hl : ∀ sid, fx.listsResp sid = .ok (listsOf sid)) :
    ∃ r, List.lookup pid ((_find_team_for_project fx cache pid).2.1) = some r := by
  rcases hlu : List.lookup pid cache with _ | r
  · have hscan := findTeamScan_healthy fx pid teams spacesOf listsOf ht hs hl
    rcases hsp : findTeamScan fx pid with ⟨slog, sr⟩
    rw [hsp] at hscan
    simp only at hscan
    subst hscan
    refine ⟨((teams.flatMap (teamBlock spacesOf listsOf)).find?
        (fun pw => pw.proj.id = pid)).bind (fun pw => pw.team), ?_⟩
    simp [_find_team_for_project, hlu, hsp, List.lookup]
  · exact ⟨r, by simp [_find_team_for_project, hlu]⟩

/-- When the project id is already cached, `get_single_project` issues only
the direct project fetch. -/
theorem get_single_project_log_cached (fx : Fixture) (cache : Cache)
    (pid : String) (r : Option Team)
    (hlu : List.lookup pid cache = some r) :
    (get_single_project fx cache pid).1 = [.getList pid] := by
  rcases hp : fx.projectResp pid with e | proj
  · simp [get_single_project, hp]
  · rcases r with _ | tm <;> simp [get_single_project, hp, _find_team_for_project, hlu]

/-- C6: on an error-free upstream, a second `get_single_project` call for
the same project id issues no request to the space-listing or list-listing
endpoints: the team resolved by the first call's scan is reused from the
cache. -/
theorem get_single_project_cached_second_call (fx : Fixture)
    (teams : List Team) (spacesOf : String → List Space) (listsOf : String → List Proj)
    (ht : fx.teamsResp = .ok teams)
    (hs : ∀ tid, fx.spacesResp tid = .ok (spacesOf tid))
    (hl : ∀ sid, fx.listsResp sid = .ok (listsOf sid))
    (cache : Cache) (pid : String) :
    ∀ req ∈ (get_single_project fx
        ((get_single_project fx cache pid).2.1) pid).1, req.isScan = false := by
  intro req hreq
  rcases hp : fx.projectResp pid with e | proj
  · simp [get_single_project, hp] at hreq
    subst hreq
    rfl
  · rw [get_single_project_cache_eq fx cache pid proj hp] at hreq
    obtain ⟨r, hlu⟩ := find_team_cache_lookup fx cache pid teams spacesOf listsOf ht hs hl
    rw [get_single_project_log_cached fx _ pid r hlu] at hreq
    simp at hreq
    subst hreq
    rfl

/-- Witness for C6 at the demo fixture: the log of the repeated lookup for
`p4` contains no space-listing or list-listing request. -/
theorem get_single_project_cached_second_call_witness :
    (get_single_project fxDemo
        ((get_single_project fxDemo ([] : Cache) "p4").2.1) "p4").1.filter
      (fun r => r.isScan) = [] := by
  have h := get_single_project_cached_second_call fxDemo demoTeams demoSpaces
    demoLists rfl (fun _ => rfl) (fun _ => rfl) [] "p4"
  rw [List.filter_eq_nil_iff]
  intro a ha
  simp [h a ha]

/-- C7: per team, `_create_team_webhook_events` issues zero
webhook-creation POSTs when some existing webhook of the team already
targets `{app_host}/integration/webhook` (whatever its event set), and
exactly one POST — with that endpoint and the fixed `WEBHOOK_EVENTS` —
when no existing webhook has that endpoint. -/
theorem webhook_idempotent_create (fx : Fixture) (host tid : String)
    (whs : List Webhook) (hw : fx.webhooksResp tid = .ok whs) :
    ((∃ wh ∈ whs, wh.endpoint = host ++ "/integration/webhook") →
      (_create_team_webhook_events fx host tid).1.filter (fun r => r.isPost) = []) ∧
    ((∀ wh ∈ whs, wh.endpoint ≠ host ++ "/integration/webhook") →
      (_create_team_webhook_events fx host tid).1.filter (fun r => r.isPost) =
        [.postWebhook tid (host ++ "/integration/webhook") WEBHOOK_EVENTS]) := by
  constructor
  · rintro ⟨wh, hmem, hend⟩
    rcases hfind : whs.find? (fun w => w.endpoint = host ++ "/integration/webhook")
        with _ | w
    · rw [List.find?_eq_none] at hfind
      exact absurd (by simpa using hend) (by simpa using hfind wh hmem)
    · simp [_create_team_webhook_events, hw, hfind, Request.isPost,
        List.filter_cons]
  · intro hnone
    have hfind : whs.find? (fun w => w.endpoint = host ++ "/integration/webhook")
        = none := by
      rw [List.find?_eq_none]
      intro w hwmem
      simpa using hnone w hwmem
    rcases hcr : fx.createWebhookResp tid with e | w <;>
      simp [_create_team_webhook_events, hw, hfind, hcr, Request.isPost,
        List.filter_cons]

/-- Witness for C7: with an existing webhook at the endpoint no POST is
issued (even though its event set differs); with no matching webhook
exactly one POST with the fixed event list is issued. -/
theorem webhook_idempotent_create_witness :
    (_create_team_webhook_events fxHook "https://h" "t1").1.filter
        (fun r => r.isPost) = [] ∧
    (_create_team_webhook_events fxDemo "https://h" "t1").1.filter
        (fun r => r.isPost) =
      [.postWebhook "t1" ("https://h" ++ "/integration/webhook") WEBHOOK_EVENTS] := by
  constructor
  · exact (webhook_idempotent_create fxHook "https://h" "t1"
      [⟨"w1", "https://h/integration/webhook", ["taskCreated"]⟩] (by rfl)).1
      ⟨⟨"w1", "https://h/integration/webhook", ["taskCreated"]⟩, by decide, by decide⟩
  · exact (webhook_idempotent_create fxDemo "https://h" "t1" [] rfl).2 (by simp)

/-- C8: every client operation propagates a non-success HTTP status on an
underlying request as an error carrying status and body, never as a
silently empty or partial result: teams, spaces, single issue, webhook
listing, webhook creation, and the team/space/list fetches inside
`get_projects`. -/
theorem http_errors_propagate (fx : Fixture) (params : Params) (e : HttpErr)
    (tid iid host : String) (t : Team) (s : Space) :
    (fx.teamsResp = .error e → (get_teams fx params).2 = .error (.http e)) ∧
    (fx.spacesResp tid = .error e →
      (_get_spaces fx tid params).2 = .error (.http e)) ∧
    (fx.issueResp iid = .error e →
      (get_single_issue fx iid).2 = .error (.http e)) ∧
    (fx.webhooksResp tid = .error e →
      (_create_team_webhook_events fx host tid).2 = .error (.http e)) ∧
    (∀ whs, fx.webhooksResp tid = .ok whs →
      (∀ wh ∈ whs, wh.endpoint ≠ host ++ "/integration/webhook") →
      fx.createWebhookResp tid = .error e →
      (_create_team_webhook_events fx host tid).2 = .error (.http e)) ∧
    (fx.teamsResp = .error e → (get_projects fx params).2 = .error (.http e)) ∧
    (fx.teamsResp = .ok [t] → fx.spacesResp t.id = .ok [s] →
      fx.listsResp s.id = .error e →
      (get_projects fx params).2 = .error (.http e)) := by
  refine ⟨?_, ?_, ?_, ?_, ?_, ?_, ?_⟩
  · intro h
    simp [get_teams, h, liftResp]
  · intro h
    simp [_get_spaces, h, liftResp]
  · intro h
    simp [get_single_issue, h, liftResp]
  · intro h
    simp [_create_team_webhook_events, h]
  · intro whs hok hnone hcr
    have hfind : whs.find? (fun w => w.endpoint = host ++ "/integration/webhook")
        = none := by
      rw [List.find?_eq_none]
      intro w hwmem
      simpa using hnone w hwmem
    simp [_create_team_webhook_events, hok, hfind, hcr]
  · intro h
    simp [get_projects, get_teams, h, liftResp]
  · intro ht hsp hl
    simp [get_projects, get_teams, ht, liftResp, projectsTeamsLoop, hsp,
      projectsSpacesLoop, hl]

/-- Witness for C8: each operation evaluated at a concrete failing fixture
yields the propagated 500 error. -/
theorem http_errors_propagate_witness :
    (get_teams fxErr []).2 = .error (.http ⟨500, "boom"⟩) ∧
    (_get_spaces fxErr "t1" []).2 = .error (.http ⟨500, "boom"⟩) ∧
    (get_single_issue fxErr "i1").2 = .error (.http ⟨500, "boom"⟩) ∧
    (_create_team_webhook_events fxErr "https://h" "t1").2 =
      .error (.http ⟨500, "boom"⟩) ∧
    (_create_team_webhook_events fxErrPost "https://h" "t1").2 =
      .error (.http ⟨500, "boom"⟩) ∧
    (get_projects fxErr []).2 = .error (.http ⟨500, "boom"⟩) ∧
    (get_projects fxErrLists []).2 = .error (.http ⟨500, "boom"⟩) := by
  refine ⟨?_, ?_, ?_, ?_, ?_, ?_, ?_⟩
  · exact (http_errors_propagate fxErr [] ⟨500, "boom"⟩ "t1" "i1" "https://h"
      ⟨"t1", "Alpha"⟩ ⟨"s1", "S1"⟩).1 rfl
  · exact (http_errors_propagate fxErr [] ⟨500, "boom"⟩ "t1" "i1" "https://h"
      ⟨"t1", "Alpha"⟩ ⟨"s1", "S1"⟩).2.1 rfl
  · exact (http_errors_propagate fxErr [] ⟨500, "boom"⟩ "t1" "i1" "https://h"
      ⟨"t1", "Alpha"⟩ ⟨"s1", "S1"⟩).2.2.1 rfl
  · exact (http_errors_propagate fxErr [] ⟨500, "boom"⟩ "t1" "i1" "https://h"
      ⟨"t1", "Alpha"⟩ ⟨"s1", "S1"⟩).2.2.2.1 rfl
  · exact (http_errors_propagate fxErrPost [] ⟨500, "boom"⟩ "t1" "i1" "https://h"
      ⟨"t1", "Alpha"⟩ ⟨"s1", "S1"⟩).2.2.2.2.1 [] rfl (by simp) rfl
  · exact (http_errors_propagate fxErr [] ⟨500, "boom"⟩ "t1" "i1" "https://h"
      ⟨"t1", "Alpha"⟩ ⟨"s1", "S1"⟩).2.2.2.2.2.1 rfl
  · exact (http_errors_propagate fxErrLists [] ⟨500, "boom"⟩ "t1" "i1" "https://h"
      ⟨"t1", "Alpha"⟩ ⟨"s1", "S1"⟩).2.2.2.2.2.2 rfl rfl rfl

/-! ## Helper lemmas about the pagination loops -/

/-- A terminating pagination loop's first request uses the `params` it was
entered with. -/
theorem paginateProject_head (fx : Fixture) (pid : String) :
    ∀ (fuel : Nat) (params : Params) (log : List Request) (pf : Params)
      (r : Except PyErr (List (List Issue))),
      paginateProject fx pid fuel params = some (log, pf, r) →
      ∃ rest, log = .getTasks pid params :: rest
  | 0, params, log, pf, r => by simp [paginateProject]
  | fuel + 1, params, log, pf, r => by
    intro h
    rcases htr : fx.tasksResp pid params.page with e | page
    · simp [paginateProject, htr] at h
      exact ⟨[], h.1.symm⟩
    · rcases hlp : page.lastPage.getD false with _ | _
      · rcases hrec : paginateProject fx pid fuel params.bumpPage with _ | out
        · simp [paginateProject, htr, hlp, hrec] at h
        · rcases out with ⟨log2, pf2, r2⟩
          simp [paginateProject, htr, hlp, hrec] at h
          exact ⟨log2, h.1.symm⟩
      · simp [paginateProject, htr, hlp] at h
        exact ⟨[], h.1.symm⟩

/-- A pagination loop that terminates normally leaves `params` exactly as
they were on its final task request: the page counter is not advanced past
the `last_page` response (and never reset). -/
theorem paginateProject_last (fx : Fixture) (pid : String) :
    ∀ (fuel : Nat) (params : Params) (log : List Request) (pf : Params)
      (bs : List (List Issue)),
      paginateProject fx pid fuel params = some (log, pf, .ok bs) →
      ∃ log0, log = log0 ++ [.getTasks pid pf]
  | 0, params, log, pf, bs => by simp [paginateProject]
  | fuel + 1, params, log, pf, bs => by
    intro h
    rcases htr : fx.tasksResp pid params.page with e | page
    · simp [paginateProject, htr] at h
    · rcases hlp : page.lastPage.getD false with _ | _
      · rcases hrec : paginateProject fx pid fuel params.bumpPage with _ | out
        · simp [paginateProject, htr, hlp, hrec] at h
        · rcases out with ⟨log2, pf2, r2⟩
          rcases r2 with e2 | bs2
          · simp [paginateProject, htr, hlp, hrec, Except.map] at h
          · simp [paginateProject, htr, hlp, hrec, Except.map] at h
            obtain ⟨log0, hlog0⟩ :=
              paginateProject_last fx pid fuel params.bumpPage log2 pf2 bs2 hrec
            refine ⟨.getTasks pid params :: log0, ?_⟩
            rw [← h.1, hlog0, h.2.1]
            rfl
      · simp [paginateProject, htr, hlp] at h
        refine ⟨[], ?_⟩
        rw [← h.1, h.2.1]
        rfl

/-- A pagination loop that terminates normally yields at least one batch:
the page is yielded before the `last_page` flag is checked. -/
theorem paginateProject_batches (fx : Fixture) (pid : String)
    (fuel : Nat) (params : Params) (log : List Request) (pf : Params)
    (bs : List (List Issue))
    (h : paginateProject fx pid fuel params = some (log, pf, .ok bs)) :
    0 < bs.length := by
  cases fuel with
  | zero => simp [paginateProject] at h
  | succ n =>
    rcases htr : fx.tasksResp pid params.page with e | page
    · simp [paginateProject, htr] at h
    · rcases hlp : page.lastPage.getD false with _ | _
      · rcases hrec : paginateProject fx pid n params.bumpPage with _ | out
        · simp [paginateProject, htr, hlp, hrec] at h
        · rcases out with ⟨log2, pf2, r2⟩
          rcases r2 with e2 | bs2
          · simp [paginateProject, htr, hlp, hrec, Except.map] at h
          · simp [paginateProject, htr, hlp, hrec, Except.map] at h
            rw [← h.2.2]
            simp
      · simp [paginateProject, htr, hlp] at h
        rw [← h.2.2]
        simp

/-- Every request a pagination loop issues is a task-page fetch. -/
theorem paginateProject_log_tasks (fx : Fixture) (pid : String) :
    ∀ (fuel : Nat) (params : Params) (out : List Request × Params ×
        Except PyErr (List (List Issue))),
      paginateProject fx pid fuel params = some out →
      ∀ req ∈ out.1, req.isTasks = true
  | 0, params, out => by simp [paginateProject]
  | fuel + 1, params, out => by
    intro h req hreq
    rcases htr : fx.tasksResp pid params.page with e | page
    · simp [paginateProject, htr] at h
      rw [← h] at hreq
      simp at hreq
      subst hreq
      rfl
    · rcases hlp : page.lastPage.getD false with _ | _
      · rcases hrec : paginateProject fx pid fuel params.bumpPage with _ | out2
        · simp [paginateProject, htr, hlp, hrec] at h
        · simp [paginateProject, htr, hlp, hrec] at h
          rw [← h] at hreq
          simp at hreq
          rcases hreq with hreq | hreq
          · subst hreq
            rfl
          · exact paginateProject_log_tasks fx pid fuel params.bumpPage out2 hrec
              req (by simp [hreq])
      · simp [paginateProject, htr, hlp] at h
        rw [← h] at hreq
        simp at hreq
        subst hreq
        rfl

/-- Every request the issues loop issues is a task-page fetch. -/
theorem issuesProjectsLoop_log_tasks (fx : Fixture) (fuel : Nat) :
    ∀ (ps : List ProjWithTeam) (params : Params)
      (out : List Request × Params × Except PyErr (List (List Issue))),
      issuesProjectsLoop fx fuel ps params = some out →
      ∀ req ∈ out.1, req.isTasks = true
  | [], params, out => by
    intro h req hreq
    simp [issuesProjectsLoop] at h
    rw [← h] at hreq
    simp at hreq
  | p :: rest, params, out => by
    intro h req hreq
    rcases hpag : paginateProject fx p.proj.id fuel params with _ | pout
    · simp [issuesProjectsLoop, hpag] at h
    · rcases pout with ⟨plog, params2, pr⟩
      rcases pr with e | batches
      · simp [issuesProjectsLoop, hpag] at h
        rw [← h] at hreq
        exact paginateProject_log_tasks fx p.proj.id fuel params _ hpag req hreq
      · rcases hrec : issuesProjectsLoop fx fuel rest params2 with _ | out2
        · simp [issuesProjectsLoop, hpag, hrec] at h
        · simp [issuesProjectsLoop, hpag, hrec] at h
          rw [← h] at hreq
          simp at hreq
          rcases hreq with hreq | hreq
          · exact paginateProject_log_tasks fx p.proj.id fuel params _ hpag req hreq
          · exact issuesProjectsLoop_log_tasks fx fuel rest params2 out2 hrec req
              (by simp [hreq])

/-- The issues loop's first request for the first project is issued with
exactly the `params` the loop was entered with. -/
theorem issuesProjectsLoop_head (fx : Fixture) (fuel : Nat)
    (p : ProjWithTeam) (rest : List ProjWithTeam) (params : Params)
    (out : List Request × Params × Except PyErr (List (List Issue)))
    (h : issuesProjectsLoop fx fuel (p :: rest) params = some out) :
    ∃ l, out.1 = .getTasks p.proj.id params :: l := by
  rcases hpag : paginateProject fx p.proj.id fuel params with _ | pout
  · simp [issuesProjectsLoop, hpag] at h
  · rcases pout with ⟨plog, params2, pr⟩
    obtain ⟨rest0, hhead⟩ :=
      paginateProject_head fx p.proj.id fuel params plog params2 pr hpag
    rcases pr with e | batches
    · simp [issuesProjectsLoop, hpag] at h
      rw [← h]
      exact ⟨rest0, by rw [hhead]⟩
    · rcases hrec : issuesProjectsLoop fx fuel rest params2 with _ | out2
      · simp [issuesProjectsLoop, hpag, hrec] at h
      · simp [issuesProjectsLoop, hpag, hrec] at h
        rw [← h]
        exact ⟨rest0 ++ out2.1, by rw [hhead]; simp⟩

/-- A normally-terminating issues loop yields at least one batch per
project. -/
theorem issuesProjectsLoop_batches (fx : Fixture) (fuel : Nat) :
    ∀ (ps : List ProjWithTeam) (params : Params) (log : List Request)
      (pf : Params) (bs : List (List Issue)),
      issuesProjectsLoop fx fuel ps params = some (log, pf, .ok bs) →
      ps.length ≤ bs.length
  | [], params, log, pf, bs => by
    intro h
    simp [issuesProjectsLoop] at h
    simp [← h.2.2]
  | p :: rest, params, log, pf, bs => by
    intro h
    rcases hpag : paginateProject fx p.proj.id fuel params with _ | pout
    · simp [issuesProjectsLoop, hpag] at h
    · rcases pout with ⟨plog, params2, pr⟩
      rcases pr with e | batches
      · simp [issuesProjectsLoop, hpag] at h
      · rcases hrec : issuesProjectsLoop fx fuel rest params2 with _ | out2
        · simp [issuesProjectsLoop, hpag, hrec] at h
        · rcases out2 with ⟨log2, pf2, r2⟩
          rcases r2 with e2 | bs2
          · simp [issuesProjectsLoop, hpag, hrec, Except.map] at h
          · simp [issuesProjectsLoop, hpag, hrec, Except.map] at h
            have h1 := paginateProject_batches fx p.proj.id fuel params plog
              params2 batches hpag
            have h2 := issuesProjectsLoop_batches fx fuel rest params2 log2 pf2
              bs2 hrec
            rw [← h.2.2]
            simp only [List.length_cons, List.length_append]
            omega

/-- C2 counterexample: at `fxC2` the first project `pA` exhausts its pages
at page 1 (its final task request, answered with `last_page = true`, is for
page 1), yet the second project's first-and-only task request is issued
with page 1 — the very page the counter was left at — not with page 2
(= N+1) and not with page 0. -/
theorem paginated_issues_shared_page_cex :
    get_paginated_issues fxC2 5 [("page", 0)] =
      some ([.getTeams [("page", 0)], .getSpaces "t1" [("page", 0)],
             .getLists "s1" [("page", 0)], .getTasks "pA" [("page", 0)],
             .getTasks "pA" [("page", 1)], .getTasks "pB" [("page", 1)]],
            [("page", 1)],
            .ok [[⟨"a0", "A0"⟩], [⟨"a1", "A1"⟩], [⟨"b1", "B1"⟩]]) ∧
    Params.page [("page", 1)] = 1 ∧ (1 : Nat) ≠ 2 ∧ (1 : Nat) ≠ 0 := by
  exact ⟨rfl, rfl, by decide, by decide⟩

/-- C2 (amended): when the first project's pagination terminates, the
shared `params` dict still holds the page number N of that project's final
(`last_page`) request — the counter is only bumped after non-final pages —
so the second project's first task request is issued with that same page N,
not with page 0 and not with N+1. -/
theorem paginated_issues_page_not_reset (fx : Fixture) (fuel : Nat)
    (p1 p2 : ProjWithTeam) (rest : List ProjWithTeam) (params : Params)
    (log : List Request) (params2 : Params)
    (r : Except PyErr (List (List Issue)))
    (log1 : List Request) (params1 : Params) (bs1 : List (List Issue))
    (h1 : paginateProject fx p1.proj.id fuel params = some (log1, params1, .ok bs1))
    (h2 : issuesProjectsLoop fx fuel (p1 :: p2 :: rest) params =
      some (log, params2, r)) :
    (log.drop (log1.length - 1)).take 2 =
      [.getTasks p1.proj.id params1, .getTasks p2.proj.id params1] := by
  rcases hrec : issuesProjectsLoop fx fuel (p2 :: rest) params1 with _ | out2
  · rw [issuesProjectsLoop, h1] at h2
    simp at h2
    rw [hrec] at h2
    simp at h2
  · obtain ⟨l, hl⟩ := issuesProjectsLoop_head fx fuel p2 rest params1 out2 hrec
    obtain ⟨log0, hlog0⟩ :=
      paginateProject_last fx p1.proj.id fuel params log1 params1 bs1 h1
    rcases out2 with ⟨log2, pf2, r2⟩
    simp only at hl
    rw [issuesProjectsLoop, h1] at h2
    simp at h2
    rw [hrec] at h2
    simp at h2
    have hlen : log1.length - 1 = log0.length := by
      rw [hlog0]
      simp
    rw [← h2.1, hlen, hlog0, hl, List.append_assoc]
    rw [show [Request.getTasks p1.proj.id params1] ++
        (Request.getTasks p2.proj.id params1 :: l) =
        Request.getTasks p1.proj.id params1 ::
          Request.getTasks p2.proj.id params1 :: l from rfl]
    rw [List.drop_left]
    rfl

/-- Witness for the amended C2 at `fxC2`: the first project's final request
and the second project's first request, adjacent in the log, both carry
page 1. -/
theorem paginated_issues_page_not_reset_witness :
    (([.getTasks "pA" [("page", 0)], .getTasks "pA" [("page", 1)],
       .getTasks "pB" [("page", 1)]] : List Request).drop
        (([.getTasks "pA" [("page", 0)], .getTasks "pA" [("page", 1)]] :
          List Request).length - 1)).take 2 =
      [.getTasks "pA" [("page", 1)], .getTasks "pB" [("page", 1)]] :=
  paginated_issues_page_not_reset fxC2 5
    ⟨⟨"pA", "PA"⟩, some ⟨"t1", "Alpha"⟩⟩ ⟨⟨"pB", "PB"⟩, some ⟨"t1", "Alpha"⟩⟩ []
    [("page", 0)]
    [.getTasks "pA" [("page", 0)], .getTasks "pA" [("page", 1)],
     .getTasks "pB" [("page", 1)]]
    [("page", 1)] (.ok [[⟨"a0", "A0"⟩], [⟨"a1", "A1"⟩], [⟨"b1", "B1"⟩]])
    [.getTasks "pA" [("page", 0)], .getTasks "pA" [("page", 1)]]
    [("page", 1)] [[⟨"a0", "A0"⟩], [⟨"a1", "A1"⟩]]
    rfl rfl

/-- C9: a normally-terminating pagination run yields at least one batch per
project: the page is yielded before the `last_page` flag is checked, so a
project whose very first response is a final (even empty) page still
contributes exactly one batch, and the issues loop yields at least as many
batches as there are projects. -/
theorem paginate_yields_batch_per_project (fx : Fixture) (fuel : Nat) :
    (∀ pid params log pf bs,
      paginateProject fx pid fuel params = some (log, pf, .ok bs) →
      0 < bs.length) ∧
    (∀ pid (params : Params),
      fx.tasksResp pid params.page = .ok ⟨[], some true⟩ →
      paginateProject fx pid (fuel + 1) params =
        some ([.getTasks pid params], params, .ok [[]])) ∧
    (∀ ps params log pf bs,
      issuesProjectsLoop fx fuel ps params = some (log, pf, .ok bs) →
      ps.length ≤ bs.length) := by
  refine ⟨fun pid params log pf bs h =>
      paginateProject_batches fx pid fuel params log pf bs h,
    fun pid params h => ?_,
    fun ps params log pf bs h =>
      issuesProjectsLoop_batches fx fuel ps params log pf bs h⟩
  simp [paginateProject, h]

/-- Witness for C9 at the demo fixture: project `p1`'s first response is an
empty final page, and the run yields exactly one batch, the empty one. -/
theorem paginate_yields_batch_per_project_witness :
    paginateProject fxDemo "p1" 1 [("page", 0)] =
      some ([.getTasks "p1" [("page", 0)]], [("page", 0)], .ok [[]]) ∧
    (0 : Nat) < ([([] : List Issue)] : List (List Issue)).length := by
  have h0 := paginate_yields_batch_per_project fxDemo 0
  have h1 := paginate_yields_batch_per_project fxDemo 1
  refine ⟨h0.2.1 "p1" [("page", 0)] rfl, ?_⟩
  exact h1.1 "p1" [("page", 0)] [.getTasks "p1" [("page", 0)]] [("page", 0)] [[]]
    (h0.2.1 "p1" [("page", 0)] rfl)

/-- Every request the inner `get_projects` loop issues carries the loop's
`params` and is not a task fetch. -/
theorem projectsSpacesLoop_log (fx : Fixture) (params : Params) (team : Team) :
    ∀ (ss : List Space) (req : Request),
      req ∈ (projectsSpacesLoop fx params team ss).1 →
      req.qparams = some params ∧ req.isTasks = false
  | [], req => by simp [projectsSpacesLoop]
  | s :: rest, req => by
    intro hreq
    rcases hls : fx.listsResp s.id with e | ls
    · simp [projectsSpacesLoop, hls] at hreq
      subst hreq
      exact ⟨rfl, rfl⟩
    · rcases hp : projectsSpacesLoop fx params team rest with ⟨lg, rr⟩
      simp [projectsSpacesLoop, hls, hp] at hreq
      rcases hreq with hreq | hreq
      · subst hreq
        exact ⟨rfl, rfl⟩
      · exact projectsSpacesLoop_log fx params team rest req (by simp [hp, hreq])

/-- Every request the outer `get_projects` loop issues carries the loop's
`params` and is not a task fetch. -/
theorem projectsTeamsLoop_log (fx : Fixture) (params : Params) :
    ∀ (ts : List Team) (req : Request),
      req ∈ (projectsTeamsLoop fx params ts).1 →
      req.qparams = some params ∧ req.isTasks = false
  | [], req => by simp [projectsTeamsLoop]
  | t :: rest, req => by
    intro hreq
    rcases hsp : fx.spacesResp t.id with e | spaces
    · simp [projectsTeamsLoop, hsp] at hreq
      subst hreq
      exact ⟨rfl, rfl⟩
    · rcases hp : projectsSpacesLoop fx params t spaces with ⟨lg, rr⟩
      rcases rr with e | ps
      · simp [projectsTeamsLoop, hsp, hp] at hreq
        rcases hreq with hreq | hreq
        · subst hreq
          exact ⟨rfl, rfl⟩
        · exact projectsSpacesLoop_log fx params t spaces req (by simp [hp, hreq])
      · rcases hp2 : projectsTeamsLoop fx params rest with ⟨lg2, rr2⟩
        simp [projectsTeamsLoop, hsp, hp, hp2] at hreq
        rcases hreq with hreq | hreq | hreq
        · subst hreq
          exact ⟨rfl, rfl⟩
        · exact projectsSpacesLoop_log fx params t spaces req (by simp [hp, hreq])
        · exact projectsTeamsLoop_log fx params rest req (by simp [hp2, hreq])

/-- Every request `get_projects` issues carries the given `params` and is
not a task fetch. -/
theorem get_projects_log (fx : Fixture) (params : Params) :
    ∀ req ∈ (get_projects fx params).1,
      req.qparams = some params ∧ req.isTasks = false := by
  intro req hreq
  rcases ht : fx.teamsResp with e | teams
  · simp [get_projects, get_teams, ht, liftResp] at hreq
    subst hreq
    exact ⟨rfl, rfl⟩
  · rcases hp : projectsTeamsLoop fx params teams with ⟨lg, rr⟩
    simp [get_projects, get_teams, ht, liftResp, hp] at hreq
    rcases hreq with hreq | hreq
    · subst hreq
      exact ⟨rfl, rfl⟩
    · exact projectsTeamsLoop_log fx params teams req (by simp [hp, hreq])

/-- The first match in a concatenation whose left part has no match is the
first match of the right part. -/
theorem find?_append_left_none {α : Type} (p : α → Bool) (l1 l2 : List α)
    (h : ∀ x ∈ l1, p x = false) : (l1 ++ l2).find? p = l2.find? p := by
  rw [List.find?_append]
  have hnone : l1.find? p = none := by
    rw [List.find?_eq_none]
    intro x hx
    simp [h x hx]
  rw [hnone]
  rfl

/-- C10: the default `params={"page": 0}` dict is created once and shared,
so a second no-argument invocation of `get_paginated_issues` runs with the
`params` left behind by the first one: every team/space/list request it
makes via `get_projects` carries those leftover `params` (with the mutated
page), and its first task request starts paginating at that leftover page,
not at page 0. -/
theorem shared_default_params_across_invocations (fx : Fixture) (fuel : Nat)
    (log1 : List Request) (params1 : Params) (bs1 : List (List Issue))
    (log2 : List Request) (params2 : Params)
    (r2 : Except PyErr (List (List Issue)))
    (h1 : get_paginated_issues fx fuel [("page", 0)] = some (log1, params1, .ok bs1))
    (h2 : get_paginated_issues fx fuel params1 = some (log2, params2, r2)) :
    (∀ req ∈ log2, req.isTasks = false → req.qparams = some params1) ∧
    (∀ pid ps, log2.find? (fun r => r.isTasks) = some (.getTasks pid ps) →
      ps = params1) := by
  rcases hgp : get_projects fx params1 with ⟨plog, pr⟩
  have hplog : ∀ req ∈ plog, req.qparams = some params1 ∧ req.isTasks = false := by
    intro req hreq
    exact get_projects_log fx params1 req (by rw [hgp]; exact hreq)
  rcases pr with e | ps
  · simp [get_paginated_issues, hgp] at h2
    constructor
    · intro req hreq _
      rw [← h2.1] at hreq
      exact (hplog req hreq).1
    · intro pid ps hfind
      rw [← h2.1] at hfind
      have : plog.find? (fun r => r.isTasks) = none := by
        rw [List.find?_eq_none]
        intro x hx
        simp [(hplog x hx).2]
      rw [this] at hfind
      exact Option.noConfusion hfind
  · rcases hloop : issuesProjectsLoop fx fuel ps params1 with _ | out
    · simp [get_paginated_issues, hgp, hloop] at h2
    · rcases out with ⟨ilog, ipf, ir⟩
      simp [get_paginated_issues, hgp, hloop] at h2
      constructor
      · intro req hreq hnt
        rw [← h2.1] at hreq
        rcases List.mem_append.mp hreq with h | h
        · exact (hplog req h).1
        · have := issuesProjectsLoop_log_tasks fx fuel ps params1
            (ilog, ipf, ir) hloop req h
          rw [hnt] at this
          exact Bool.noConfusion this
      · intro pid ps' hfind
        rw [← h2.1,
          find?_append_left_none _ plog ilog (fun x hx => (hplog x hx).2)] at hfind
        cases ps with
        | nil =>
          simp [issuesProjectsLoop] at hloop
          rw [hloop.1] at hfind
          simp [List.find?] at hfind
        | cons p prest =>
          obtain ⟨l, hl⟩ :=
            issuesProjectsLoop_head fx fuel p prest params1 (ilog, ipf, ir) hloop
          simp only at hl
          rw [hl] at hfind
          rw [List.find?_cons_of_pos _ rfl] at hfind
          injection hfind with h
          injection h with ha hb
          exact hb.symm

/-- Witness for C10 at `fxC2`: after the first no-argument run leaves
`page = 1` behind, the second run's list request carries `page = 1` and its
first task request is the one issued with `page = 1`. -/
theorem shared_default_params_across_invocations_witness :
    (Request.getLists "s1" [("page", 1)]).qparams = some [("page", 1)] ∧
    ([("page", 1)] : Params) = [("page", 1)] := by
  have h := shared_default_params_across_invocations fxC2 5
    [.getTeams [("page", 0)], .getSpaces "t1" [("page", 0)],
     .getLists "s1" [("page", 0)], .getTasks "pA" [("page", 0)],
     .getTasks "pA" [("page", 1)], .getTasks "pB" [("page", 1)]]
    [("page", 1)]
    [[⟨"a0", "A0"⟩], [⟨"a1", "A1"⟩], [⟨"b1", "B1"⟩]]
    [.getTeams [("page", 1)], .getSpaces "t1" [("page", 1)],
     .getLists "s1" [("page", 1)], .getTasks "pA" [("page", 1)],
     .getTasks "pB" [("page", 1)]]
    [("page", 1)] (.ok [[⟨"a1", "A1"⟩], [⟨"b1", "B1"⟩]]) rfl rfl
  exact ⟨h.1 (.getLists "s1" [("page", 1)]) (by decide) rfl,
    h.2 "pA" [("page", 1)] rfl⟩
